import Mathlib

/-!
Verification development for the lightningBeerTap repository.

This file gives a shallow embedding of the payment-reconciliation core of
`dual_wallet_monitor.py` and `lightning_solenoid_polling.py`:

* `PaymentRecord` models a JSON payment object from the LNbits list and
  per-identifier endpoints; absent or unparseable timestamp fields are
  modelled as `none` (the Python code treats an absent field and a field
  that fails every parse attempt the same way: it moves on to the next
  field in the fixed preference order `time, created_at, paid_at, date`).
* `WalletState` models the per-wallet mutable state
  (`pending_invoices`, `processed_payments`, `last_check_time`).  The
  Python `dict` is modelled as an insertion-ordered association list and
  the Python `set` as an insertion-ordered duplicate-free list; set
  iteration order (used only by the cleanup routine via `list(...)`) is
  unspecified in Python, so `cleanup_old_processed_payments` takes the
  enumeration order as an explicit argument constrained to be a
  permutation of the set's elements.
* Network calls are modelled by their observable data: the bulk list
  endpoint's response is an `Option (List PaymentRecord)` (`none` =
  transport error / non-200, which Python turns into `None`), and the
  per-identifier endpoint is a function `String → Option PaymentRecord`.
* Solenoid activations are recorded as an event trace
  `List Activation = List (String × Nat)` of (payment hash, sats) pairs.
* GPIO is modelled as a pin-to-level map; exceptions raised by the
  blocking hold step (`time.sleep`) are injected through a Boolean flag
  and propagated/caught exactly as the `try/except/finally` structure of
  the source dictates.

Times are integers (seconds); `timedelta(hours=24)` is `86400`.
-/

set_option maxRecDepth 8000

namespace LightningBeerTap

/-- A payment object as returned by the LNbits `/api/v1/payments` list
endpoint and the `/api/v1/payments/{hash}` status endpoint.  `amount` is
the signed millisat amount; `payment_hash` / `checking_id` are `none`
when the JSON field is absent; each timestamp field is `none` when
absent or unparseable and `some t` when it parses to the instant `t`. -/
structure PaymentRecord where
  amount : Int
  payment_hash : Option String
  checking_id : Option String
  memo : String
  time : Option Int
  created_at : Option Int
  paid_at : Option Int
  date : Option Int
  paid : Bool
deriving DecidableEq

/-- `payment.get('payment_hash', payment.get('checking_id', ''))`:
the identifier used throughout both monitors. -/
def recordId (p : PaymentRecord) : String :=
  p.payment_hash.getD (p.checking_id.getD "")

/-- The timestamp-resolution loop of `scan_for_recent_payments`: try the
fields `'time', 'created_at', 'paid_at', 'date'` in order and keep the
first one that is present and parses. -/
def resolveTime (p : PaymentRecord) : Option Int :=
  match p.time with
  | some t => some t
  | none =>
    match p.created_at with
    | some t => some t
    | none =>
      match p.paid_at with
      | some t => some t
      | none => p.date

/-- `abs(amount) // 1000`: millisat to sat conversion. -/
def amountSats (p : PaymentRecord) : Nat :=
  p.amount.natAbs / 1000

/-- Per-wallet configuration (`WALLET_1_CONFIG` / `WALLET_2_CONFIG`).
The numeric pour parameters are rationals because the Python code mixes
them into float arithmetic. -/
structure WalletConfig where
  relay_pin : Nat
  min_payment_amount : Nat
  sats_per_second : ℚ
  max_pour_duration : ℚ
  default_duration : ℚ
deriving DecidableEq

/-- The value stored in `pending_invoices[payment_hash]`. -/
structure PendingData where
  amount : Nat
  memo : String
  created_time : Int
deriving DecidableEq

/-- Per-wallet mutable state: the `pending_invoices` dict (insertion
ordered, keys unique by construction), the `processed_payments` set
(insertion ordered, duplicate free by construction), and the
`last_check_time` watermark. -/
structure WalletState where
  pending_invoices : List (String × PendingData)
  processed_payments : List String
  last_check_time : Int
deriving DecidableEq

/-- An `activate_solenoid` invocation recorded as (payment hash, sats). -/
abbrev Activation := String × Nat

/-- `set.add`: appends the element unless already present. -/
def addProcessed (s : List String) (h : String) : List String :=
  if h ∈ s then s else s ++ [h]

/-- `payment_hash in pending_invoices`: key membership in the dict. -/
def hasKey (l : List (String × PendingData)) (h : String) : Bool :=
  l.any (fun e => e.1 == h)

/-! ## Duration calculator (`calculate_pour_duration`) -/

/-- `round(x, 1)`: rounding to one decimal place. -/
def round1 (q : ℚ) : ℚ :=
  ((round (q * 10) : ℤ) : ℚ) / 10

/-- `calculate_pour_duration(amount_sats, wallet_config)`: if the rate is
non-positive return the default duration, otherwise divide, cap at
`max_pour_duration`, floor at `0.5`, and round to one decimal. -/
def calculate_pour_duration (amount_sats : ℚ) (cfg : WalletConfig) : ℚ :=
  if cfg.sats_per_second ≤ 0 then cfg.default_duration
  else
    let calculated := amount_sats / cfg.sats_per_second
    let d1 := min calculated cfg.max_pour_duration
    let d2 := max d1 (1 / 2)
    round1 d2

/-! ## Actuator controller (`activate_solenoid`) -/

/-- GPIO output state: pin number to level (`true` = HIGH = engaged). -/
def GpioState := Nat → Bool

/-- `GPIO.output(pin, level)`. -/
def gpioOutput (pin : Nat) (level : Bool) (g : GpioState) : GpioState :=
  fun q => if q = pin then level else g q

/-- Outcome of a Python call: normal return or a propagating exception. -/
inductive PyResult where
  | ok
  | raised (msg : String)
deriving DecidableEq

/-- `activate_solenoid` of `dual_wallet_monitor.py`: guard on a missing
config (logged, early return); `try` sets the pin HIGH and holds
(`time.sleep` may raise, injected via `holdFails`); `except Exception`
catches and logs; `finally` unconditionally sets the pin LOW when a
config was provided. -/
def activate_solenoid (cfg : Option WalletConfig) (amount_sats : ℚ)
    (holdFails : Bool) (g : GpioState) : GpioState × PyResult :=
  match cfg with
  | none => (g, .ok)
  | some c =>
    let _pour := calculate_pour_duration amount_sats c
    let bodyState := gpioOutput c.relay_pin true g
    let bodyResult : PyResult := if holdFails then .raised "sleep failed" else .ok
    let caught : PyResult :=
      match bodyResult with
      | .raised _ => .ok
      | r => r
    let finalState := gpioOutput c.relay_pin false bodyState
    (finalState, caught)

/-- `RELAY_PIN` of `lightning_solenoid_polling.py`. -/
def RELAY_PIN : Nat := 18

/-- `MIN_PAYMENT_AMOUNT` of `lightning_solenoid_polling.py`. -/
def MIN_PAYMENT_AMOUNT : Nat := 1

/-- `activate_solenoid` of `lightning_solenoid_polling.py`: `try` sets
the pin HIGH, holds, sets it LOW; `except Exception` logs and sets the
pin LOW (the exception is not re-raised). -/
def activate_solenoid_polling (holdFails : Bool) (g : GpioState) :
    GpioState × PyResult :=
  let g1 := gpioOutput RELAY_PIN true g
  if holdFails then
    (gpioOutput RELAY_PIN false g1, .ok)
  else
    (gpioOutput RELAY_PIN false g1, .ok)

/-! ## Reconciliation engine: scan (`scan_for_recent_payments`) -/

/-- The body of the `for payment in payments` loop of
`scan_for_recent_payments` (dual monitor), threading the state and the
trace of solenoid activations: skip non-incoming records; skip records
already in the processed set; move below-minimum records straight to the
processed set; skip records without a usable timestamp; for records at
or after the watermark, actuate and mark processed when the advisory
`paid` flag is set, otherwise insert a pending invoice if the key is not
already tracked; skip records older than the watermark. -/
def scan_step (cfg : WalletConfig) (acc : WalletState × List Activation)
    (p : PaymentRecord) : WalletState × List Activation :=
  let st := acc.1
  let acts := acc.2
  if p.amount ≤ 0 then (st, acts)
  else
    let h := recordId p
    let sats := amountSats p
    if h ∈ st.processed_payments then (st, acts)
    else if 0 < cfg.min_payment_amount ∧ sats < cfg.min_payment_amount then
      ({ st with processed_payments := addProcessed st.processed_payments h }, acts)
    else
      match resolveTime p with
      | none => (st, acts)
      | some t =>
        if st.last_check_time ≤ t then
          if p.paid then
            ({ st with processed_payments := addProcessed st.processed_payments h },
              acts ++ [(h, sats)])
          else if hasKey st.pending_invoices h then (st, acts)
          else
            ({ st with pending_invoices :=
                st.pending_invoices ++ [(h, ⟨sats, p.memo, t⟩)] }, acts)
        else (st, acts)

/-- `scan_for_recent_payments(wallet_config, wallet_state)` of the dual
monitor.  `payments` is the list endpoint's response (`none` = transport
error, turned into `None` by `get_recent_payments`); Python's
`if not payments: return` also aborts on an empty list, leaving the
watermark untouched.  On a truthy list the loop runs and
`last_check_time` is then set to `now` (the `current_time` captured at
the start of the call). -/
def scan_for_recent_payments (cfg : WalletConfig) (now : Int)
    (payments : Option (List PaymentRecord)) (st : WalletState) :
    WalletState × List Activation :=
  match payments with
  | none => (st, [])
  | some ps =>
    if ps.isEmpty then (st, [])
    else
      ({ (ps.foldl (scan_step cfg) (st, [])).1 with last_check_time := now },
        (ps.foldl (scan_step cfg) (st, [])).2)

/-! ## Reconciliation engine: pending check (`check_pending_payments`) -/

/-- The paid verdict of `check_specific_payment_status`: a transport
error or non-200 response yields `(False, None)`, a 200 response yields
the record's `paid` flag. -/
def reportsPaid (api : String → Option PaymentRecord) (h : String) : Bool :=
  match api h with
  | some r => r.paid
  | none => false

/-- Accumulator of the sweep loop in `check_pending_payments`:
the `completed_payments` list, the updated processed set, and the
activation trace. -/
structure CheckAcc where
  completed : List String
  processed : List String
  acts : List Activation
deriving DecidableEq

/-- One iteration of the sweep in `check_pending_payments`: if the
authoritative endpoint reports the invoice paid, actuate with the
*stored* amount, append to `completed_payments`, and add the hash to the
processed set; otherwise leave everything unchanged. -/
def check_step (api : String → Option PaymentRecord) (acc : CheckAcc)
    (e : String × PendingData) : CheckAcc :=
  if reportsPaid api e.1 then
    { completed := acc.completed ++ [e.1]
      processed := addProcessed acc.processed e.1
      acts := acc.acts ++ [(e.1, e.2.amount)] }
  else acc

/-- `timedelta(hours=24)` in seconds. -/
def hours24 : Int := 86400

/-- `check_pending_payments` — the same algorithm is embedded for both
monitors, whose bodies differ only in logging and in passing the wallet
config to `activate_solenoid`: early return when no invoices are
pending; sweep every pending entry against the authoritative endpoint,
actuating and recording completions; delete the completed keys from the
dict; then compute the entries whose `created_time` is older than the
24-hour cutoff and delete those keys as well (they are only deleted —
nothing is added to the processed set for them). -/
def check_pending_payments (api : String → Option PaymentRecord)
    (now : Int) (st : WalletState) : WalletState × List Activation :=
  if st.pending_invoices.isEmpty then (st, [])
  else
    let acc := st.pending_invoices.foldl (check_step api)
      ⟨[], st.processed_payments, []⟩
    let afterCompleted := st.pending_invoices.filter
      (fun e => decide (e.1 ∉ acc.completed))
    let cutoff := now - hours24
    let expired := (afterCompleted.filter
      (fun e => decide (e.2.created_time < cutoff))).map Prod.fst
    let afterExpired := afterCompleted.filter
      (fun e => decide (e.1 ∉ expired))
    ({ pending_invoices := afterExpired
       processed_payments := acc.processed
       last_check_time := st.last_check_time }, acc.acts)

/-! ## Reconciliation engine: polling-variant scan (`scan_for_new_invoices`) -/

/-- The body of the `for payment in payments` loop of
`scan_for_new_invoices` (polling monitor): skip non-incoming records;
skip records already pending or processed; move below-minimum records
straight to the processed set; otherwise consult the authoritative
endpoint — a record already paid is marked processed without actuation
(historical payment), an unpaid one becomes a pending invoice stamped
with the current instant.  This scan never actuates. -/
def scan_new_step (api : String → Option PaymentRecord) (now : Int)
    (st : WalletState) (p : PaymentRecord) : WalletState :=
  if p.amount ≤ 0 then st
  else
    let h := recordId p
    let sats := amountSats p
    if hasKey st.pending_invoices h ∨ h ∈ st.processed_payments then st
    else if 0 < MIN_PAYMENT_AMOUNT ∧ sats < MIN_PAYMENT_AMOUNT then
      { st with processed_payments := addProcessed st.processed_payments h }
    else if reportsPaid api h then
      { st with processed_payments := addProcessed st.processed_payments h }
    else
      { st with pending_invoices :=
          st.pending_invoices ++ [(h, ⟨sats, p.memo, now⟩)] }

/-- `scan_for_new_invoices` of the polling monitor (its state has no
watermark; the shared `WalletState.last_check_time` field is simply
never read or written by this function). -/
def scan_for_new_invoices (api : String → Option PaymentRecord)
    (now : Int) (payments : Option (List PaymentRecord))
    (st : WalletState) : WalletState :=
  match payments with
  | none => st
  | some ps =>
    if ps.isEmpty then st
    else ps.foldl (scan_new_step api now) st

/-! ## Housekeeping (`cleanup_old_processed_payments`) -/

/-- `l[-n:]`: the last `n` elements of a list. -/
def lastN (n : Nat) (l : List String) : List String :=
  l.drop (l.length - n)

/-- `cleanup_old_processed_payments` for one wallet: when the processed
set holds more than 1000 identifiers, replace it by the last 500 of
`list(processed_payments)`.  Python set iteration order is unspecified
(hash-based, randomized for strings), so the enumeration produced by
`list(...)` is passed in as `order`; theorems constrain it to be a
permutation of the set's elements. -/
def cleanup_old_processed_payments (order : List String)
    (st : WalletState) : WalletState :=
  if 1000 < st.processed_payments.length then
    { st with processed_payments := lastN 500 order }
  else st

/-! ## Properties of the rounding helper -/

lemma round1_mono {q r : ℚ} (h : q ≤ r) : round1 q ≤ round1 r := by
  unfold round1
  have h2 : round (q * 10) ≤ round (r * 10) := by
    rw [round_eq, round_eq]
    exact Int.floor_mono (by linarith)
  have h3 : ((round (q * 10) : ℤ) : ℚ) ≤ ((round (r * 10) : ℤ) : ℚ) := by
    exact_mod_cast h2
  linarith

lemma round1_tenth (k : ℤ) : round1 ((k : ℚ) / 10) = (k : ℚ) / 10 := by
  unfold round1
  have h : ((k : ℚ) / 10) * 10 = (k : ℚ) := by ring
  rw [h, round_intCast]

lemma round1_half : round1 (1 / 2 : ℚ) = 1 / 2 := by
  have h5 : ((1 : ℚ) / 2) = ((5 : ℤ) : ℚ) / 10 := by norm_num
  rw [h5, round1_tenth]

/-! ## Basic properties of the state operations -/

lemma mem_addProcessed {s : List String} {h x : String} :
    x ∈ addProcessed s h ↔ x ∈ s ∨ x = h := by
  unfold addProcessed
  by_cases hm : h ∈ s
  · rw [if_pos hm]
    constructor
    · exact Or.inl
    · rintro (hx | rfl)
      · exact hx
      · exact hm
  · rw [if_neg hm]
    simp

lemma hasKey_iff {l : List (String × PendingData)} {h : String} :
    hasKey l h = true ↔ ∃ d, (h, d) ∈ l := by
  unfold hasKey
  rw [List.any_eq_true]
  constructor
  · rintro ⟨⟨a, b⟩, he, heq⟩
    have ha : a = h := by simpa using heq
    subst ha
    exact ⟨b, he⟩
  · rintro ⟨d, hd⟩
    exact ⟨(h, d), hd, by simp⟩

lemma nodupKeys_eq {l : List (String × PendingData)}
    (hnd : (l.map Prod.fst).Nodup) {h : String} {d1 d2 : PendingData}
    (h1 : (h, d1) ∈ l) (h2 : (h, d2) ∈ l) : d1 = d2 := by
  induction l with
  | nil => cases h1
  | cons e tl ih =>
    rw [List.map_cons, List.nodup_cons] at hnd
    rcases List.mem_cons.mp h1 with he1 | h1'
    · rcases List.mem_cons.mp h2 with he2 | h2'
      · rw [← he1] at he2
        exact (Prod.mk.injEq _ _ _ _ ▸ he2).2.symm
      · exfalso
        apply hnd.1
        have : e.1 = h := by rw [← he1]
        rw [this]
        exact List.mem_map_of_mem Prod.fst h2'
    · rcases List.mem_cons.mp h2 with he2 | h2'
      · exfalso
        apply hnd.1
        have : e.1 = h := by rw [← he2]
        rw [this]
        exact List.mem_map_of_mem Prod.fst h1'
      · exact ih hnd.2 h1' h2'

/-! ## Characterization of the pending-check sweep -/

lemma check_fold_acts (api : String → Option PaymentRecord) (h : String)
    (a : Nat) :
    ∀ (l : List (String × PendingData)) (acc : CheckAcc),
      ((h, a) ∈ (l.foldl (check_step api) acc).acts ↔
        (h, a) ∈ acc.acts ∨
          ∃ d, (h, d) ∈ l ∧ reportsPaid api h = true ∧ a = d.amount) := by
  intro l
  induction l with
  | nil => intro acc; simp
  | cons e tl ih =>
    obtain ⟨e1, e2⟩ := e
    intro acc
    rw [List.foldl_cons, ih]
    unfold check_step
    dsimp only
    by_cases hp : reportsPaid api e1
    · rw [if_pos hp]
      constructor
      · rintro (hin | ⟨d, hd, hph, ha⟩)
        · rcases List.mem_append.mp hin with h1 | h2
          · exact Or.inl h1
          · have he := List.mem_singleton.mp h2
            injection he with hh haa
            subst hh; subst haa
            exact Or.inr ⟨e2, List.mem_cons_self _ _, hp, rfl⟩
        · exact Or.inr ⟨d, List.mem_cons_of_mem _ hd, hph, ha⟩
      · rintro (hacc | ⟨d, hd, hph, ha⟩)
        · exact Or.inl (List.mem_append_left _ hacc)
        · rcases List.mem_cons.mp hd with he | htl
          · injection he with hh hdd
            subst hh; subst hdd
            exact Or.inl (List.mem_append_right _
              (List.mem_singleton.mpr (by rw [ha])))
          · exact Or.inr ⟨d, htl, hph, ha⟩
    · rw [if_neg hp]
      constructor
      · rintro (hacc | ⟨d, hd, hph, ha⟩)
        · exact Or.inl hacc
        · exact Or.inr ⟨d, List.mem_cons_of_mem _ hd, hph, ha⟩
      · rintro (hacc | ⟨d, hd, hph, ha⟩)
        · exact Or.inl hacc
        · rcases List.mem_cons.mp hd with he | htl
          · injection he with hh hdd
            subst hh
            exact absurd hph hp
          · exact Or.inr ⟨d, htl, hph, ha⟩

lemma check_fold_completed (api : String → Option PaymentRecord)
    (h : String) :
    ∀ (l : List (String × PendingData)) (acc : CheckAcc),
      (h ∈ (l.foldl (check_step api) acc).completed ↔
        h ∈ acc.completed ∨
          ∃ d, (h, d) ∈ l ∧ reportsPaid api h = true) := by
  intro l
  induction l with
  | nil => intro acc; simp
  | cons e tl ih =>
    obtain ⟨e1, e2⟩ := e
    intro acc
    rw [List.foldl_cons, ih]
    unfold check_step
    dsimp only
    by_cases hp : reportsPaid api e1
    · rw [if_pos hp]
      constructor
      · rintro (hin | ⟨d, hd, hph⟩)
        · rcases List.mem_append.mp hin with h1 | h2
          · exact Or.inl h1
          · have he := List.mem_singleton.mp h2
            subst he
            exact Or.inr ⟨e2, List.mem_cons_self _ _, hp⟩
        · exact Or.inr ⟨d, List.mem_cons_of_mem _ hd, hph⟩
      · rintro (hacc | ⟨d, hd, hph⟩)
        · exact Or.inl (List.mem_append_left _ hacc)
        · rcases List.mem_cons.mp hd with he | htl
          · injection he with hh hdd
            subst hh
            exact Or.inl (List.mem_append_right _ (List.mem_singleton.mpr rfl))
          · exact Or.inr ⟨d, htl, hph⟩
    · rw [if_neg hp]
      constructor
      · rintro (hacc | ⟨d, hd, hph⟩)
        · exact Or.inl hacc
        · exact Or.inr ⟨d, List.mem_cons_of_mem _ hd, hph⟩
      · rintro (hacc | ⟨d, hd, hph⟩)
        · exact Or.inl hacc
        · rcases List.mem_cons.mp hd with he | htl
          · injection he with hh hdd
            subst hh
            exact absurd hph hp
          · exact Or.inr ⟨d, htl, hph⟩

lemma check_fold_processed (api : String → Option PaymentRecord)
    (h : String) :
    ∀ (l : List (String × PendingData)) (acc : CheckAcc),
      (h ∈ (l.foldl (check_step api) acc).processed ↔
        h ∈ acc.processed ∨
          ∃ d, (h, d) ∈ l ∧ reportsPaid api h = true) := by
  intro l
  induction l with
  | nil => intro acc; simp
  | cons e tl ih =>
    obtain ⟨e1, e2⟩ := e
    intro acc
    rw [List.foldl_cons, ih]
    unfold check_step
    dsimp only
    by_cases hp : reportsPaid api e1
    · rw [if_pos hp]
      constructor
      · rintro (hin | ⟨d, hd, hph⟩)
        · rcases mem_addProcessed.mp hin with h1 | h2
          · exact Or.inl h1
          · subst h2
            exact Or.inr ⟨e2, List.mem_cons_self _ _, hp⟩
        · exact Or.inr ⟨d, List.mem_cons_of_mem _ hd, hph⟩
      · rintro (hacc | ⟨d, hd, hph⟩)
        · exact Or.inl (mem_addProcessed.mpr (Or.inl hacc))
        · rcases List.mem_cons.mp hd with he | htl
          · injection he with hh hdd
            subst hh
            exact Or.inl (mem_addProcessed.mpr (Or.inr rfl))
          · exact Or.inr ⟨d, htl, hph⟩
    · rw [if_neg hp]
      constructor
      · rintro (hacc | ⟨d, hd, hph⟩)
        · exact Or.inl hacc
        · exact Or.inr ⟨d, List.mem_cons_of_mem _ hd, hph⟩
      · rintro (hacc | ⟨d, hd, hph⟩)
        · exact Or.inl hacc
        · rcases List.mem_cons.mp hd with he | htl
          · injection he with hh hdd
            subst hh
            exact absurd hph hp
          · exact Or.inr ⟨d, htl, hph⟩

lemma check_pending_acts_iff (api : String → Option PaymentRecord)
    (now : Int) (st : WalletState) (h : String) (a : Nat) :
    ((h, a) ∈ (check_pending_payments api now st).2 ↔
      ∃ d, (h, d) ∈ st.pending_invoices ∧ reportsPaid api h = true ∧
        a = d.amount) := by
  unfold check_pending_payments
  by_cases he : st.pending_invoices.isEmpty
  · rw [if_pos he]
    have hnil : st.pending_invoices = [] := by
      cases hl : st.pending_invoices with
      | nil => rfl
      | cons x xs => rw [hl] at he; cases he
    simp [hnil]
  · rw [if_neg he]
    simp only
    rw [check_fold_acts]
    simp

lemma check_pending_processed_iff (api : String → Option PaymentRecord)
    (now : Int) (st : WalletState) (h : String) :
    (h ∈ (check_pending_payments api now st).1.processed_payments ↔
      h ∈ st.processed_payments ∨
        ∃ d, (h, d) ∈ st.pending_invoices ∧ reportsPaid api h = true) := by
  unfold check_pending_payments
  by_cases he : st.pending_invoices.isEmpty
  · rw [if_pos he]
    have hnil : st.pending_invoices = [] := by
      cases hl : st.pending_invoices with
      | nil => rfl
      | cons x xs => rw [hl] at he; cases he
    simp [hnil]
  · rw [if_neg he]
    simp only
    rw [check_fold_processed]

lemma check_pending_mem_pending_iff (api : String → Option PaymentRecord)
    (now : Int) (st : WalletState) (h : String) (d : PendingData) :
    ((h, d) ∈ (check_pending_payments api now st).1.pending_invoices ↔
      (h, d) ∈ st.pending_invoices ∧ reportsPaid api h = false ∧
        ∀ d2, (h, d2) ∈ st.pending_invoices →
          ¬ d2.created_time < now - hours24) := by
  unfold check_pending_payments
  by_cases he : st.pending_invoices.isEmpty
  · rw [if_pos he]
    have hnil : st.pending_invoices = [] := by
      cases hl : st.pending_invoices with
      | nil => rfl
      | cons x xs => rw [hl] at he; cases he
    simp [hnil]
  · rw [if_neg he]
    simp only [List.mem_filter, decide_eq_true_eq]
    constructor
    · rintro ⟨⟨hmem, hncomp⟩, hnexp⟩
      have hnp : reportsPaid api h = false := by
        by_contra hcon
        exact hncomp ((check_fold_completed api h _ _).mpr
          (Or.inr ⟨d, hmem, Bool.of_not_eq_false hcon⟩))
      refine ⟨hmem, hnp, ?_⟩
      intro d2 hd2 hold
      apply hnexp
      have hd2ac : (h, d2) ∈ st.pending_invoices.filter
          (fun e => decide (e.1 ∉ (st.pending_invoices.foldl
            (check_step api) ⟨[], st.processed_payments, []⟩).completed)) := by
        rw [List.mem_filter]
        exact ⟨hd2, by simpa using hncomp⟩
      rw [List.mem_map]
      refine ⟨(h, d2), ?_, rfl⟩
      rw [List.mem_filter]
      exact ⟨hd2ac, by simpa using hold⟩
    · rintro ⟨hmem, hnp, hfresh⟩
      have hncomp : h ∉ (st.pending_invoices.foldl (check_step api)
          ⟨[], st.processed_payments, []⟩).completed := by
        rw [check_fold_completed]
        rintro (hc | ⟨d2, _, hpd⟩)
        · cases hc
        · rw [hnp] at hpd; cases hpd
      refine ⟨⟨hmem, by simpa using hncomp⟩, ?_⟩
      simp only [List.mem_map, List.mem_filter, decide_eq_true_eq]
      rintro ⟨⟨h2, d2⟩, ⟨⟨hd2, _⟩, hold⟩, rfl⟩
      exact hfresh d2 hd2 hold

/-! ## Claim theorems -/

/-- C2: every call to the solenoid activation routine returns the
actuator output to the OFF state before returning or propagating, on
every exit path including an exception raised during the hold step; in
the dual monitor the `finally` block forces the pin LOW and the
exception is swallowed by `except Exception`, and in the polling monitor
the `except Exception` handler forces the pin LOW and does not
re-raise.  Immediately after either call, the output is OFF. -/
theorem C2_actuator_off (c : WalletConfig) (amount : ℚ)
    (holdFails holdFails2 : Bool) (g g2 : GpioState) :
    ((activate_solenoid (some c) amount holdFails g).1 c.relay_pin = false ∧
      (activate_solenoid (some c) amount holdFails g).2 = PyResult.ok) ∧
    ((activate_solenoid_polling holdFails2 g2).1 RELAY_PIN = false ∧
      (activate_solenoid_polling holdFails2 g2).2 = PyResult.ok) := by
  cases holdFails <;> cases holdFails2 <;>
    simp [activate_solenoid, activate_solenoid_polling, gpioOutput]

/-- C3 (amended): if `sats_per_second ≤ 0` the duration is the default;
otherwise it is `amount / rate` capped at `max_pour_duration`, floored
at `0.5`, and rounded to one decimal place, and — provided the
configured `max_pour_duration` is at least `0.5` and is a multiple of
`0.1` — the result lies within `[0.5, max_pour_duration]`.  The function
is total.  (The unrestricted range claim is refuted by
`C3_duration_counterexample`.) -/
theorem C3_duration_in_range (amount : ℚ) (cfg : WalletConfig) (k : ℤ)
    (hamount : 0 ≤ amount)
    (hhalf : 1 / 2 ≤ cfg.max_pour_duration)
    (htenth : cfg.max_pour_duration = (k : ℚ) / 10) :
    (cfg.sats_per_second ≤ 0 →
      calculate_pour_duration amount cfg = cfg.default_duration) ∧
    (0 < cfg.sats_per_second →
      calculate_pour_duration amount cfg =
        round1 (max (min (amount / cfg.sats_per_second)
          cfg.max_pour_duration) (1 / 2)) ∧
      1 / 2 ≤ calculate_pour_duration amount cfg ∧
      calculate_pour_duration amount cfg ≤ cfg.max_pour_duration) := by
  constructor
  · intro hle
    simp [calculate_pour_duration, hle]
  · intro hpos
    have hne : ¬ cfg.sats_per_second ≤ 0 := not_le.mpr hpos
    have heq : calculate_pour_duration amount cfg =
        round1 (max (min (amount / cfg.sats_per_second)
          cfg.max_pour_duration) (1 / 2)) := by
      simp [calculate_pour_duration, hne]
    refine ⟨heq, ?_, ?_⟩
    · rw [heq]
      calc (1 / 2 : ℚ) = round1 (1 / 2) := round1_half.symm
        _ ≤ _ := round1_mono (le_max_right _ _)
    · rw [heq]
      have hx : max (min (amount / cfg.sats_per_second)
          cfg.max_pour_duration) (1 / 2) ≤ cfg.max_pour_duration :=
        max_le (min_le_right _ _) hhalf
      calc round1 _ ≤ round1 cfg.max_pour_duration := round1_mono hx
        _ = cfg.max_pour_duration := by rw [htenth]; exact round1_tenth k

/-- C3 witness: a concrete in-range evaluation through
`C3_duration_in_range` (rate 10 sats/s, max 10 s, 42 sats). -/
theorem C3_duration_in_range_witness :
    ((0 : ℚ) ≤ 42 ∧ (1 / 2 : ℚ) ≤ 10 ∧ (10 : ℚ) = ((100 : ℤ) : ℚ) / 10) ∧
    (((⟨18, 1, 10, 10, 5⟩ : WalletConfig).sats_per_second ≤ 0 →
      calculate_pour_duration 42 ⟨18, 1, 10, 10, 5⟩ =
        (⟨18, 1, 10, 10, 5⟩ : WalletConfig).default_duration) ∧
    (0 < (⟨18, 1, 10, 10, 5⟩ : WalletConfig).sats_per_second →
      calculate_pour_duration 42 ⟨18, 1, 10, 10, 5⟩ =
        round1 (max (min ((42 : ℚ) /
          (⟨18, 1, 10, 10, 5⟩ : WalletConfig).sats_per_second)
          (⟨18, 1, 10, 10, 5⟩ : WalletConfig).max_pour_duration) (1 / 2)) ∧
      1 / 2 ≤ calculate_pour_duration 42 ⟨18, 1, 10, 10, 5⟩ ∧
      calculate_pour_duration 42 ⟨18, 1, 10, 10, 5⟩ ≤
        (⟨18, 1, 10, 10, 5⟩ : WalletConfig).max_pour_duration)) :=
  ⟨⟨by norm_num, by norm_num, by norm_num⟩,
    C3_duration_in_range 42 ⟨18, 1, 10, 10, 5⟩ 100 (by norm_num)
      (by norm_num) (by norm_num)⟩

/-- C3 counterexample: the claim as stated ("the returned value always
lies within `[0.5, max_pour_duration]` for every configuration") is
false.  With `max_pour_duration = 0.25` the result `0.5` exceeds the
cap, and with `max_pour_duration = 0.66` the one-decimal rounding of
`33 / 50 = 0.66` is `0.7`, also above the cap. -/
theorem C3_duration_counterexample :
    (calculate_pour_duration 0 ⟨18, 1, 1, 1 / 4, 5⟩ = 1 / 2 ∧
      ¬ calculate_pour_duration 0 ⟨18, 1, 1, 1 / 4, 5⟩ ≤
        (⟨18, 1, 1, 1 / 4, 5⟩ : WalletConfig).max_pour_duration) ∧
    (calculate_pour_duration 33 ⟨18, 1, 50, 33 / 50, 5⟩ = 7 / 10 ∧
      ¬ calculate_pour_duration 33 ⟨18, 1, 50, 33 / 50, 5⟩ ≤
        (⟨18, 1, 50, 33 / 50, 5⟩ : WalletConfig).max_pour_duration) := by
  refine ⟨⟨?_, ?_⟩, ?_, ?_⟩ <;>
    norm_num [calculate_pour_duration, round1, min_def, max_def, round_eq]

/-- C1 (code bug): the at-most-once actuation guarantee is violated.  A
record discovered unpaid with timestamp equal to the scan's watermark
instant enters `pending_invoices`; when a later scan sees the same
record with the advisory `paid` flag set (timestamp still `≥` the
watermark, because the comparison is non-strict), the scan's fast path
actuates and marks it processed but does not remove it from
`pending_invoices`, and the following `check_pending_payments` sweep —
which never consults `processed_payments` — actuates the same
identifier a second time. -/
theorem C1_double_actuation :
    let cfg : WalletConfig := ⟨18, 1, 10, 10, 5⟩
    let ru : PaymentRecord :=
      ⟨5000, some "abc", none, "", some 100, none, none, none, false⟩
    let rp : PaymentRecord :=
      ⟨5000, some "abc", none, "", some 100, none, none, none, true⟩
    let st0 : WalletState := ⟨[], [], 0⟩
    let s1 := scan_for_recent_payments cfg 100 (some [ru]) st0
    let c1 := check_pending_payments (fun _ => some ru) 150 s1.1
    let s2 := scan_for_recent_payments cfg 200 (some [rp]) c1.1
    let c2 := check_pending_payments (fun _ => some rp) 250 s2.1
    (s1.2 ++ c1.2 ++ s2.2 ++ c2.2).count ("abc", 5) = 2 := by
  decide

/-- C8: within a single `check_pending_payments` call the paid-status
sweep over all pending entries runs before the 24-hour expiry cleanup,
so a pending invoice that is both older than 24 hours and reported paid
by the authoritative endpoint in that call is actuated and moved to the
processed set and removed from the pending map (confirmed, not
expired). -/
theorem C8_sweep_before_expiry (api : String → Option PaymentRecord)
    (now : Int) (st : WalletState) (h : String) (d : PendingData)
    (hmem : (h, d) ∈ st.pending_invoices)
    (hold : d.created_time < now - hours24)
    (hpaid : reportsPaid api h = true) :
    (h, d.amount) ∈ (check_pending_payments api now st).2 ∧
    h ∈ (check_pending_payments api now st).1.processed_payments ∧
    hasKey (check_pending_payments api now st).1.pending_invoices h =
      false := by
  refine ⟨?_, ?_, ?_⟩
  · exact (check_pending_acts_iff api now st h d.amount).mpr
      ⟨d, hmem, hpaid, rfl⟩
  · exact (check_pending_processed_iff api now st h).mpr
      (Or.inr ⟨d, hmem, hpaid⟩)
  · by_contra hcon
    rw [Bool.not_eq_false, hasKey_iff] at hcon
    obtain ⟨d2, hd2⟩ := hcon
    have hres :=
      ((check_pending_mem_pending_iff api now st h d2).mp hd2).2.1
    rw [hpaid] at hres
    exact Bool.noConfusion hres

/-- C8 witness: a pending invoice discovered at instant 0, checked at
instant 100000 (beyond the 24-hour cutoff) while the endpoint reports it
paid, is actuated, processed, and no longer pending. -/
theorem C8_sweep_before_expiry_witness :
    ((("h1", (⟨5, "", 0⟩ : PendingData)) ∈
        (⟨[("h1", ⟨5, "", 0⟩)], [], 0⟩ : WalletState).pending_invoices) ∧
      (⟨5, "", 0⟩ : PendingData).created_time < 100000 - hours24 ∧
      reportsPaid (fun _ =>
        some ⟨5000, some "h1", none, "", some 0, none, none, none, true⟩)
        "h1" = true) ∧
    (("h1", (⟨5, "", 0⟩ : PendingData).amount) ∈
      (check_pending_payments (fun _ =>
        some ⟨5000, some "h1", none, "", some 0, none, none, none, true⟩)
        100000 ⟨[("h1", ⟨5, "", 0⟩)], [], 0⟩).2 ∧
    "h1" ∈ (check_pending_payments (fun _ =>
        some ⟨5000, some "h1", none, "", some 0, none, none, none, true⟩)
        100000 ⟨[("h1", ⟨5, "", 0⟩)], [], 0⟩).1.processed_payments ∧
    hasKey (check_pending_payments (fun _ =>
        some ⟨5000, some "h1", none, "", some 0, none, none, none, true⟩)
        100000 ⟨[("h1", ⟨5, "", 0⟩)], [], 0⟩).1.pending_invoices "h1" =
      false) :=
  ⟨⟨by decide, by decide, by decide⟩,
    C8_sweep_before_expiry _ 100000 _ "h1" _ (by decide) (by decide)
      (by decide)⟩

/-- C9: every activation emitted by `check_pending_payments` carries the
amount stored in the pending entry at discovery time — the record
returned by the authoritative endpoint at confirmation time is never
consulted for the actuation amount. -/
theorem C9_stored_amount (api : String → Option PaymentRecord)
    (now : Int) (st : WalletState) (h : String) (a : Nat)
    (hact : (h, a) ∈ (check_pending_payments api now st).2) :
    ∃ d, (h, d) ∈ st.pending_invoices ∧ a = d.amount := by
  obtain ⟨d, hd, _, ha⟩ := (check_pending_acts_iff api now st h a).mp hact
  exact ⟨d, hd, ha⟩

/-- C9 witness: the endpoint reports the record with amount 9000 msat
(9 sats) but the actuation uses the stored 5 sats. -/
theorem C9_stored_amount_witness :
    (("h1", 5) ∈
      (check_pending_payments (fun _ =>
        some ⟨9000, some "h1", none, "", some 0, none, none, none, true⟩)
        1000 ⟨[("h1", ⟨5, "", 0⟩)], [], 0⟩).2) ∧
    (∃ d, ("h1", d) ∈
        (⟨[("h1", ⟨5, "", 0⟩)], [], 0⟩ : WalletState).pending_invoices ∧
      5 = d.amount) :=
  ⟨by decide,
    C9_stored_amount (fun _ =>
        some ⟨9000, some "h1", none, "", some 0, none, none, none, true⟩)
      1000 ⟨[("h1", ⟨5, "", 0⟩)], [], 0⟩ "h1" 5 (by decide)⟩

/-- C4 (amended): a pending invoice older than 24 hours that the
authoritative endpoint does not report as paid is removed from the
pending map by `check_pending_payments` and never actuated, but its
identifier is *not* placed into the processed set — the expiry sweep
only deletes the dict entry.  (The claim's "places its identifier into
ProcessedSet" is refuted by `C4_expiry_counterexample`.) -/
theorem C4_expiry_no_processed (api : String → Option PaymentRecord)
    (now : Int) (st : WalletState) (h : String) (d : PendingData)
    (hmem : (h, d) ∈ st.pending_invoices)
    (hold : d.created_time < now - hours24)
    (hunpaid : reportsPaid api h = false)
    (hnp : h ∉ st.processed_payments) :
    hasKey (check_pending_payments api now st).1.pending_invoices h =
      false ∧
    h ∉ (check_pending_payments api now st).1.processed_payments ∧
    ∀ a, (h, a) ∉ (check_pending_payments api now st).2 := by
  refine ⟨?_, ?_, ?_⟩
  · by_contra hcon
    rw [Bool.not_eq_false, hasKey_iff] at hcon
    obtain ⟨d2, hd2⟩ := hcon
    have hres := (check_pending_mem_pending_iff api now st h d2).mp hd2
    exact hres.2.2 d hmem hold
  · intro hcon
    rcases (check_pending_processed_iff api now st h).mp hcon with
      hc | ⟨d2, _, hpd⟩
    · exact hnp hc
    · rw [hunpaid] at hpd
      exact Bool.noConfusion hpd
  · intro a hcon
    obtain ⟨d2, _, hpd, _⟩ :=
      (check_pending_acts_iff api now st h a).mp hcon
    rw [hunpaid] at hpd
    exact Bool.noConfusion hpd

/-- C4 witness: an invoice discovered at instant 0 and checked at
instant 100000 with a failing endpoint is removed, not processed, not
actuated, through `C4_expiry_no_processed`. -/
theorem C4_expiry_no_processed_witness :
    ((("h1", (⟨5, "", 0⟩ : PendingData)) ∈
        (⟨[("h1", ⟨5, "", 0⟩)], [], 0⟩ : WalletState).pending_invoices) ∧
      (⟨5, "", 0⟩ : PendingData).created_time < 100000 - hours24 ∧
      reportsPaid (fun _ => none) "h1" = false ∧
      "h1" ∉ (⟨[("h1", ⟨5, "", 0⟩)], [], 0⟩ : WalletState).processed_payments) ∧
    (hasKey (check_pending_payments (fun _ => none) 100000
        ⟨[("h1", ⟨5, "", 0⟩)], [], 0⟩).1.pending_invoices "h1" = false ∧
      "h1" ∉ (check_pending_payments (fun _ => none) 100000
        ⟨[("h1", ⟨5, "", 0⟩)], [], 0⟩).1.processed_payments ∧
      ∀ a, ("h1", a) ∉ (check_pending_payments (fun _ => none) 100000
        ⟨[("h1", ⟨5, "", 0⟩)], [], 0⟩).2) :=
  ⟨⟨by decide, by decide, by decide, by decide⟩,
    C4_expiry_no_processed (fun _ => none) 100000
      ⟨[("h1", ⟨5, "", 0⟩)], [], 0⟩ "h1" ⟨5, "", 0⟩ (by decide) (by decide)
      (by decide) (by decide)⟩

/-- C4 counterexample: the claim as stated — that the expired entry's
identifier is placed into ProcessedSet — is false: after expiring the
only pending invoice the processed set is still empty (the pending map
is emptied and nothing was actuated). -/
theorem C4_expiry_counterexample :
    let st : WalletState := ⟨[("h1", ⟨5, "", 0⟩)], [], 0⟩
    let r := check_pending_payments (fun _ => none) 100000 st
    r.1.pending_invoices = [] ∧ r.1.processed_payments = [] ∧
    r.2 = [] ∧ "h1" ∉ r.1.processed_payments := by
  decide

/-- C7 (amended): a failed `listPayments` call (`None` from
`get_recent_payments`) leaves the whole channel state — pending map,
processed set and watermark — exactly as it was and triggers nothing;
a failed per-identifier status check during `check_pending_payments`
leaves the affected pending entry in place to be retried on the next
tick *provided the entry is not older than 24 hours* — an entry that is
both unreachable and expired is still removed by the expiry sweep
(refuting the unconditional claim, see `C7_transport_counterexample`). -/
theorem C7_transport_error (cfg : WalletConfig) (now1 : Int)
    (st1 : WalletState) (api : String → Option PaymentRecord) (now : Int)
    (st : WalletState) (h : String) (d : PendingData)
    (hnodup : (st.pending_invoices.map Prod.fst).Nodup)
    (hmem : (h, d) ∈ st.pending_invoices)
    (herr : api h = none)
    (hfresh : ¬ d.created_time < now - hours24) :
    scan_for_recent_payments cfg now1 none st1 = (st1, []) ∧
    (h, d) ∈ (check_pending_payments api now st).1.pending_invoices := by
  constructor
  · rfl
  · have hnp : reportsPaid api h = false := by
      unfold reportsPaid
      rw [herr]
    refine (check_pending_mem_pending_iff api now st h d).mpr
      ⟨hmem, hnp, ?_⟩
    intro d2 hd2
    rw [nodupKeys_eq hnodup hd2 hmem]
    exact hfresh

/-- C7 witness: with a failing endpoint and a 0-aged entry checked at
instant 1000, the entry survives the call, through
`C7_transport_error`. -/
theorem C7_transport_error_witness :
    ((((⟨[("h1", ⟨5, "", 0⟩)], [], 0⟩ :
          WalletState).pending_invoices.map Prod.fst).Nodup) ∧
      (("h1", (⟨5, "", 0⟩ : PendingData)) ∈
        (⟨[("h1", ⟨5, "", 0⟩)], [], 0⟩ : WalletState).pending_invoices) ∧
      (fun (_ : String) => (none : Option PaymentRecord)) "h1" = none ∧
      ¬ (⟨5, "", 0⟩ : PendingData).created_time < 1000 - hours24) ∧
    (scan_for_recent_payments ⟨18, 1, 10, 10, 5⟩ 7 none ⟨[], [], 0⟩ =
        (⟨[], [], 0⟩, []) ∧
      ("h1", (⟨5, "", 0⟩ : PendingData)) ∈
        (check_pending_payments (fun _ => none) 1000
          ⟨[("h1", ⟨5, "", 0⟩)], [], 0⟩).1.pending_invoices) :=
  ⟨⟨by decide, by decide, by decide, by decide⟩,
    C7_transport_error ⟨18, 1, 10, 10, 5⟩ 7 ⟨[], [], 0⟩ (fun _ => none)
      1000 ⟨[("h1", ⟨5, "", 0⟩)], [], 0⟩ "h1" ⟨5, "", 0⟩ (by decide)
      (by decide) (by decide) (by decide)⟩

/-- C7 counterexample: the claim that a failed per-identifier check
always leaves the affected pending entry in place is false: when the
entry is also older than 24 hours, the expiry sweep removes it in the
same call even though its status check failed. -/
theorem C7_transport_counterexample :
    let st : WalletState := ⟨[("h1", ⟨5, "", 0⟩)], [], 0⟩
    (fun (_ : String) => (none : Option PaymentRecord)) "h1" = none ∧
    hasKey (check_pending_payments (fun _ => none) 100000
      st).1.pending_invoices "h1" = false := by
  decide

/-- C5 (amended): whenever the processed set holds more than 1000
identifiers, `cleanup_old_processed_payments` truncates it to exactly
500 identifiers, all drawn from the original set; *which* 500 survive
depends on the set's unspecified iteration order (the `order` argument),
not necessarily the most-recently-inserted ones (see
`C5_truncation_counterexample`). -/
theorem C5_truncation (st : WalletState) (order : List String)
    (hperm : order.Perm st.processed_payments)
    (hlen : 1000 < st.processed_payments.length) :
    (cleanup_old_processed_payments order st).processed_payments.length =
      500 ∧
    ∀ x ∈ (cleanup_old_processed_payments order st).processed_payments,
      x ∈ st.processed_payments := by
  unfold cleanup_old_processed_payments
  rw [if_pos hlen]
  constructor
  · show (lastN 500 order).length = 500
    unfold lastN
    rw [List.length_drop]
    have hlo : order.length = st.processed_payments.length :=
      hperm.length_eq
    omega
  · intro x hx
    have hxo : x ∈ order := List.drop_subset _ _ hx
    exact hperm.mem_iff.mp hxo

/-- C5 witness: truncating a 1001-identifier set (identity enumeration
order) through `C5_truncation`. -/
theorem C5_truncation_witness :
    (((List.range 1001).map (fun n => toString n)).Perm
        (⟨[], (List.range 1001).map (fun n => toString n), 0⟩ :
          WalletState).processed_payments ∧
      1000 < (⟨[], (List.range 1001).map (fun n => toString n), 0⟩ :
          WalletState).processed_payments.length) ∧
    ((cleanup_old_processed_payments
        ((List.range 1001).map (fun n => toString n))
        ⟨[], (List.range 1001).map (fun n => toString n), 0⟩
      ).processed_payments.length = 500 ∧
    ∀ x ∈ (cleanup_old_processed_payments
        ((List.range 1001).map (fun n => toString n))
        ⟨[], (List.range 1001).map (fun n => toString n), 0⟩
      ).processed_payments,
      x ∈ (⟨[], (List.range 1001).map (fun n => toString n), 0⟩ :
        WalletState).processed_payments) :=
  ⟨⟨List.Perm.refl _, by decide⟩,
    C5_truncation ⟨[], (List.range 1001).map (fun n => toString n), 0⟩
      ((List.range 1001).map (fun n => toString n)) (List.Perm.refl _)
      (by decide)⟩

/-- C5 counterexample: with the enumeration order reversed (a legal
iteration order for a Python set), the 500 retained identifiers are the
*earliest*-inserted ones: `"1000"` is among the most-recently-inserted
500 but is evicted, refuting the claim that the retained identifiers are
the most-recently-inserted 500. -/
theorem C5_truncation_counterexample :
    ((List.range 1001).map (fun n => toString n)).reverse.Perm
      (⟨[], (List.range 1001).map (fun n => toString n), 0⟩ :
        WalletState).processed_payments ∧
    1000 < (⟨[], (List.range 1001).map (fun n => toString n), 0⟩ :
        WalletState).processed_payments.length ∧
    (cleanup_old_processed_payments
        ((List.range 1001).map (fun n => toString n)).reverse
        ⟨[], (List.range 1001).map (fun n => toString n), 0⟩
      ).processed_payments.length = 500 ∧
    "1000" ∈ lastN 500 ((List.range 1001).map (fun n => toString n)) ∧
    "1000" ∉ (cleanup_old_processed_payments
        ((List.range 1001).map (fun n => toString n)).reverse
        ⟨[], (List.range 1001).map (fun n => toString n), 0⟩
      ).processed_payments := by
  refine ⟨List.reverse_perm _, ?_, ?_, ?_, ?_⟩
  · decide
  · decide
  · decide
  · decide

/-! ## Scan idempotence machinery

`settled` says the scan loop's treatment of a record is already decided
by the state: the record is non-incoming, or its identifier is
processed, or it is below the minimum, or it has no usable timestamp, or
it is older than the watermark, or it is an unpaid record whose
identifier is already a pending key.  A `scan_step` on a settled record
adds no activation and no pending entry.  `grows` is the monotonicity
relation a scan step preserves: the processed set and the pending key
set only grow and the watermark is untouched during the loop. -/

def settled (cfg : WalletConfig) (st : WalletState)
    (p : PaymentRecord) : Prop :=
  p.amount ≤ 0 ∨
  recordId p ∈ st.processed_payments ∨
  (0 < cfg.min_payment_amount ∧ amountSats p < cfg.min_payment_amount) ∨
  resolveTime p = none ∨
  (∃ t, resolveTime p = some t ∧ t < st.last_check_time) ∨
  (p.paid = false ∧ hasKey st.pending_invoices (recordId p) = true)

def grows (s s' : WalletState) : Prop :=
  (∀ x, x ∈ s.processed_payments → x ∈ s'.processed_payments) ∧
  (∀ x, hasKey s.pending_invoices x = true →
    hasKey s'.pending_invoices x = true) ∧
  s'.last_check_time = s.last_check_time

lemma grows_refl (s : WalletState) : grows s s :=
  ⟨fun _ hx => hx, fun _ hx => hx, rfl⟩

lemma grows_trans {s1 s2 s3 : WalletState} (h12 : grows s1 s2)
    (h23 : grows s2 s3) : grows s1 s3 :=
  ⟨fun x hx => h23.1 x (h12.1 x hx), fun x hx => h23.2.1 x (h12.2.1 x hx),
    h23.2.2.trans h12.2.2⟩

lemma hasKey_append {l : List (String × PendingData)}
    {e : String × PendingData} {x : String} (hx : hasKey l x = true) :
    hasKey (l ++ [e]) x = true := by
  rw [hasKey_iff] at hx ⊢
  obtain ⟨d, hd⟩ := hx
  exact ⟨d, List.mem_append_left _ hd⟩

lemma settled_mono {cfg : WalletConfig} {s s' : WalletState}
    {p : PaymentRecord} (hs : settled cfg s p) (hg : grows s s') :
    settled cfg s' p := by
  rcases hs with h | h | h | h | ⟨t, ht, hlt⟩ | ⟨hp, hk⟩
  · exact Or.inl h
  · exact Or.inr (Or.inl (hg.1 _ h))
  · exact Or.inr (Or.inr (Or.inl h))
  · exact Or.inr (Or.inr (Or.inr (Or.inl h)))
  · exact Or.inr (Or.inr (Or.inr (Or.inr (Or.inl
      ⟨t, ht, by rw [hg.2.2]; exact hlt⟩))))
  · exact Or.inr (Or.inr (Or.inr (Or.inr (Or.inr ⟨hp, hg.2.1 _ hk⟩))))

lemma settled_raise {cfg : WalletConfig} {s : WalletState}
    {p : PaymentRecord} (hs : settled cfg s p) {n : Int}
    (hn : s.last_check_time ≤ n) :
    settled cfg { s with last_check_time := n } p := by
  rcases hs with h | h | h | h | ⟨t, ht, hlt⟩ | ⟨hp, hk⟩
  · exact Or.inl h
  · exact Or.inr (Or.inl h)
  · exact Or.inr (Or.inr (Or.inl h))
  · exact Or.inr (Or.inr (Or.inr (Or.inl h)))
  · exact Or.inr (Or.inr (Or.inr (Or.inr (Or.inl
      ⟨t, ht, lt_of_lt_of_le hlt hn⟩))))
  · exact Or.inr (Or.inr (Or.inr (Or.inr (Or.inr ⟨hp, hk⟩))))

lemma scan_step_grows (cfg : WalletConfig)
    (acc : WalletState × List Activation) (p : PaymentRecord) :
    grows acc.1 (scan_step cfg acc p).1 := by
  unfold scan_step
  dsimp only
  split
  · exact grows_refl _
  · split
    · exact grows_refl _
    · split
      · exact ⟨fun x hx => mem_addProcessed.mpr (Or.inl hx),
          fun x hx => hx, rfl⟩
      · split
        · exact grows_refl _
        · split
          · split
            · exact ⟨fun x hx => mem_addProcessed.mpr (Or.inl hx),
                fun x hx => hx, rfl⟩
            · split
              · exact grows_refl _
              · exact ⟨fun x hx => hx, fun x hx => hasKey_append hx, rfl⟩
          · exact grows_refl _

lemma scan_step_settles_self (cfg : WalletConfig)
    (acc : WalletState × List Activation) (p : PaymentRecord) :
    settled cfg (scan_step cfg acc p).1 p := by
  unfold scan_step
  dsimp only
  split
  · exact Or.inl ‹_›
  · split
    · exact Or.inr (Or.inl ‹_›)
    · split
      · exact Or.inr (Or.inr (Or.inl ‹_›))
      · split
        · exact Or.inr (Or.inr (Or.inr (Or.inl ‹_›)))
        · rename_i t hrt
          split
          · split
            · exact Or.inr (Or.inl (mem_addProcessed.mpr (Or.inr rfl)))
            · rename_i hpaid
              have hpf : p.paid = false := Bool.not_eq_true _ ▸ hpaid
              split
              · exact Or.inr (Or.inr (Or.inr (Or.inr (Or.inr
                  ⟨hpf, ‹_›⟩))))
              · refine Or.inr (Or.inr (Or.inr (Or.inr (Or.inr
                  ⟨hpf, ?_⟩))))
                rw [hasKey_iff]
                exact ⟨_, List.mem_append_right _ (List.mem_singleton.mpr rfl)⟩
          · rename_i hnle
            exact Or.inr (Or.inr (Or.inr (Or.inr (Or.inl
              ⟨t, hrt, lt_of_not_le hnle⟩))))

lemma scan_step_benign {cfg : WalletConfig}
    {acc : WalletState × List Activation} {p : PaymentRecord}
    (hs : settled cfg acc.1 p) :
    (scan_step cfg acc p).2 = acc.2 ∧
    (scan_step cfg acc p).1.pending_invoices = acc.1.pending_invoices := by
  unfold scan_step
  dsimp only
  split
  · exact ⟨rfl, rfl⟩
  · rename_i hnle
    split
    · exact ⟨rfl, rfl⟩
    · rename_i hnin
      split
      · exact ⟨rfl, rfl⟩
      · rename_i hnmin
        split
        · exact ⟨rfl, rfl⟩
        · rename_i t hrt
          split
          · rename_i hle
            split
            · rename_i hpaid
              exfalso
              rcases hs with h | h | h | h | ⟨t2, ht2, hlt⟩ | ⟨hpf, _⟩
              · exact hnle h
              · exact hnin h
              · exact hnmin h
              · rw [hrt] at h; cases h
              · rw [hrt] at ht2
                injection ht2 with ht2
                subst ht2
                exact absurd hle (not_le.mpr hlt)
              · rw [hpaid] at hpf; cases hpf
            · split
              · exact ⟨rfl, rfl⟩
              · rename_i hpaid hnk
                exfalso
                rcases hs with h | h | h | h | ⟨t2, ht2, hlt⟩ | ⟨_, hk⟩
                · exact hnle h
                · exact hnin h
                · exact hnmin h
                · rw [hrt] at h; cases h
                · rw [hrt] at ht2
                  injection ht2 with ht2
                  subst ht2
                  exact absurd hle (not_le.mpr hlt)
                · exact hnk hk
          · exact ⟨rfl, rfl⟩

lemma scan_foldl_grows (cfg : WalletConfig) :
    ∀ (ps : List PaymentRecord) (acc : WalletState × List Activation),
      grows acc.1 (ps.foldl (scan_step cfg) acc).1 := by
  intro ps
  induction ps with
  | nil => intro acc; exact grows_refl _
  | cons q tl ih =>
    intro acc
    rw [List.foldl_cons]
    exact grows_trans (scan_step_grows cfg acc q) (ih _)

lemma scan_foldl_settles (cfg : WalletConfig) :
    ∀ (ps : List PaymentRecord) (acc : WalletState × List Activation)
      (p : PaymentRecord), p ∈ ps →
      settled cfg (ps.foldl (scan_step cfg) acc).1 p := by
  intro ps
  induction ps with
  | nil => intro acc p hp; cases hp
  | cons q tl ih =>
    intro acc p hp
    rw [List.foldl_cons]
    rcases List.mem_cons.mp hp with rfl | htl
    · exact settled_mono (scan_step_settles_self cfg acc p)
        (scan_foldl_grows cfg tl _)
    · exact ih _ p htl

lemma scan_foldl_benign (cfg : WalletConfig) :
    ∀ (ps : List PaymentRecord) (acc : WalletState × List Activation),
      (∀ p ∈ ps, settled cfg acc.1 p) →
      (ps.foldl (scan_step cfg) acc).2 = acc.2 ∧
      (ps.foldl (scan_step cfg) acc).1.pending_invoices =
        acc.1.pending_invoices := by
  intro ps
  induction ps with
  | nil => intro acc _; exact ⟨rfl, rfl⟩
  | cons q tl ih =>
    intro acc hall
    rw [List.foldl_cons]
    have hstep := scan_step_benign (hall q (List.mem_cons_self _ _))
    have hrest : ∀ p ∈ tl, settled cfg (scan_step cfg acc q).1 p :=
      fun p hp => settled_mono (hall p (List.mem_cons_of_mem _ hp))
        (scan_step_grows cfg acc q)
    obtain ⟨ha, hp⟩ := ih _ hrest
    exact ⟨ha.trans hstep.1, hp.trans hstep.2⟩

/-! ## Polling scan idempotence machinery -/

def known (st : WalletState) (p : PaymentRecord) : Prop :=
  p.amount ≤ 0 ∨ hasKey st.pending_invoices (recordId p) = true ∨
    recordId p ∈ st.processed_payments

lemma known_mono {s s' : WalletState} {p : PaymentRecord}
    (hs : known s p) (hg : grows s s') : known s' p := by
  rcases hs with h | h | h
  · exact Or.inl h
  · exact Or.inr (Or.inl (hg.2.1 _ h))
  · exact Or.inr (Or.inr (hg.1 _ h))

lemma poll_step_grows (api : String → Option PaymentRecord) (now : Int)
    (st : WalletState) (p : PaymentRecord) :
    grows st (scan_new_step api now st p) := by
  unfold scan_new_step
  dsimp only
  split
  · exact grows_refl _
  · split
    · exact grows_refl _
    · split
      · exact ⟨fun x hx => mem_addProcessed.mpr (Or.inl hx),
          fun x hx => hx, rfl⟩
      · split
        · exact ⟨fun x hx => mem_addProcessed.mpr (Or.inl hx),
            fun x hx => hx, rfl⟩
        · exact ⟨fun x hx => hx, fun x hx => hasKey_append hx, rfl⟩

lemma poll_step_known_self (api : String → Option PaymentRecord)
    (now : Int) (st : WalletState) (p : PaymentRecord) :
    known (scan_new_step api now st p) p := by
  unfold scan_new_step
  dsimp only
  split
  · exact Or.inl ‹_›
  · split
    · rename_i hor
      rcases hor with hk | hin
      · exact Or.inr (Or.inl hk)
      · exact Or.inr (Or.inr hin)
    · split
      · exact Or.inr (Or.inr (mem_addProcessed.mpr (Or.inr rfl)))
      · split
        · exact Or.inr (Or.inr (mem_addProcessed.mpr (Or.inr rfl)))
        · refine Or.inr (Or.inl ?_)
          rw [hasKey_iff]
          exact ⟨_, List.mem_append_right _ (List.mem_singleton.mpr rfl)⟩

lemma poll_step_noop {api : String → Option PaymentRecord} {now : Int}
    {st : WalletState} {p : PaymentRecord} (hs : known st p) :
    scan_new_step api now st p = st := by
  unfold scan_new_step
  dsimp only
  split
  · rfl
  · split
    · rfl
    · rename_i hnle hnor
      exfalso
      rcases hs with h | h | h
      · exact hnle h
      · exact hnor (Or.inl h)
      · exact hnor (Or.inr h)

lemma poll_foldl_grows (api : String → Option PaymentRecord) (now : Int) :
    ∀ (ps : List PaymentRecord) (st : WalletState),
      grows st (ps.foldl (scan_new_step api now) st) := by
  intro ps
  induction ps with
  | nil => intro st; exact grows_refl _
  | cons q tl ih =>
    intro st
    rw [List.foldl_cons]
    exact grows_trans (poll_step_grows api now st q) (ih _)

lemma poll_foldl_known (api : String → Option PaymentRecord) (now : Int) :
    ∀ (ps : List PaymentRecord) (st : WalletState) (p : PaymentRecord),
      p ∈ ps → known (ps.foldl (scan_new_step api now) st) p := by
  intro ps
  induction ps with
  | nil => intro st p hp; cases hp
  | cons q tl ih =>
    intro st p hp
    rw [List.foldl_cons]
    rcases List.mem_cons.mp hp with rfl | htl
    · exact known_mono (poll_step_known_self api now st p)
        (poll_foldl_grows api now tl _)
    · exact ih _ p htl

lemma poll_foldl_noop (api : String → Option PaymentRecord) (now : Int) :
    ∀ (ps : List PaymentRecord) (st : WalletState),
      (∀ p ∈ ps, known st p) →
      ps.foldl (scan_new_step api now) st = st := by
  intro ps
  induction ps with
  | nil => intro st _; rfl
  | cons q tl ih =>
    intro st hall
    rw [List.foldl_cons, poll_step_noop (hall q (List.mem_cons_self _ _))]
    exact ih st (fun p hp => hall p (List.mem_cons_of_mem _ hp))

/-- C6: scanning twice in succession with an unchanged payment list is
idempotent.  For the dual monitor (with the natural precondition that
the first scan's instant is at or after the stored watermark, which the
orchestrator's monotone clock guarantees), the second scan emits no
activation and adds no pending entry; for the polling monitor the
second scan leaves the state entirely unchanged (and that scan contains
no activation call at all). -/
theorem C6_scan_idempotent (cfg : WalletConfig) (ps : List PaymentRecord)
    (st : WalletState) (now1 now2 : Int)
    (api1 api2 : String → Option PaymentRecord) (qs : List PaymentRecord)
    (pst : WalletState) (m1 m2 : Int)
    (hwm : st.last_check_time ≤ now1) :
    ((scan_for_recent_payments cfg now2 (some ps)
        (scan_for_recent_payments cfg now1 (some ps) st).1).2 = [] ∧
      (scan_for_recent_payments cfg now2 (some ps)
          (scan_for_recent_payments cfg now1 (some ps) st).1
        ).1.pending_invoices =
        (scan_for_recent_payments cfg now1 (some ps) st).1.pending_invoices) ∧
    scan_for_new_invoices api2 m2 (some qs)
        (scan_for_new_invoices api1 m1 (some qs) pst) =
      scan_for_new_invoices api1 m1 (some qs) pst := by
  constructor
  · unfold scan_for_recent_payments
    dsimp only
    by_cases he : ps.isEmpty
    · simp only [if_pos he]
      constructor <;> trivial
    · simp only [if_neg he]
      have hlast : (ps.foldl (scan_step cfg) (st, [])).1.last_check_time =
          st.last_check_time :=
        (scan_foldl_grows cfg ps (st, [])).2.2
      have hsettled : ∀ p ∈ ps, settled cfg
          { (ps.foldl (scan_step cfg) (st, [])).1 with
            last_check_time := now1 } p :=
        fun p hp => settled_raise (scan_foldl_settles cfg ps (st, []) p hp)
          (by rw [hlast]; exact hwm)
      have hben := scan_foldl_benign cfg ps
        ({ (ps.foldl (scan_step cfg) (st, [])).1 with
          last_check_time := now1 }, []) hsettled
      exact ⟨hben.1, hben.2⟩
  · unfold scan_for_new_invoices
    dsimp only
    by_cases he : qs.isEmpty
    · simp only [if_pos he]
    · simp only [if_neg he]
      exact poll_foldl_noop api2 m2 qs
        (qs.foldl (scan_new_step api1 m1) pst)
        (fun p hp => poll_foldl_known api1 m1 qs pst p hp)

/-- C6 witness: a one-record list scanned twice through
`C6_scan_idempotent`. -/
theorem C6_scan_idempotent_witness :
    ((⟨[], [], 0⟩ : WalletState).last_check_time ≤ 100) ∧
    (((scan_for_recent_payments ⟨18, 1, 10, 10, 5⟩ 200
        (some [⟨5000, some "abc", none, "", some 10, none, none, none,
          false⟩])
        (scan_for_recent_payments ⟨18, 1, 10, 10, 5⟩ 100
          (some [⟨5000, some "abc", none, "", some 10, none, none, none,
            false⟩]) ⟨[], [], 0⟩).1).2 = [] ∧
      (scan_for_recent_payments ⟨18, 1, 10, 10, 5⟩ 200
          (some [⟨5000, some "abc", none, "", some 10, none, none, none,
            false⟩])
          (scan_for_recent_payments ⟨18, 1, 10, 10, 5⟩ 100
            (some [⟨5000, some "abc", none, "", some 10, none, none, none,
              false⟩]) ⟨[], [], 0⟩).1).1.pending_invoices =
        (scan_for_recent_payments ⟨18, 1, 10, 10, 5⟩ 100
          (some [⟨5000, some "abc", none, "", some 10, none, none, none,
            false⟩]) ⟨[], [], 0⟩).1.pending_invoices) ∧
    scan_for_new_invoices (fun _ => none) 20
        (some [⟨5000, some "abc", none, "", some 10, none, none, none,
          false⟩])
        (scan_for_new_invoices (fun _ => none) 10
          (some [⟨5000, some "abc", none, "", some 10, none, none, none,
            false⟩]) ⟨[], [], 0⟩) =
      scan_for_new_invoices (fun _ => none) 10
        (some [⟨5000, some "abc", none, "", some 10, none, none, none,
          false⟩]) ⟨[], [], 0⟩) :=
  ⟨by decide,
    C6_scan_idempotent ⟨18, 1, 10, 10, 5⟩
      [⟨5000, some "abc", none, "", some 10, none, none, none, false⟩]
      ⟨[], [], 0⟩ 100 200 (fun _ => none) (fun _ => none)
      [⟨5000, some "abc", none, "", some 10, none, none, none, false⟩]
      ⟨[], [], 0⟩ 10 20 (by decide)⟩

/-- C10 (amended): a record with neither a `payment_hash` nor a
`checking_id` field gets the empty string as its identifier.  Once `""`
is in the processed set, the dual scan skips every later identifier-less
record outright.  While `""` is only a pending key, a later
identifier-less *unpaid* record adds no pending entry and no activation
— but an identifier-less record marked paid with a fresh timestamp is
still processed (see `C10_empty_id_counterexample`).  The polling scan
skips identifier-less records outright once `""` is pending or
processed. -/
theorem C10_empty_identifier (cfg : WalletConfig) (st : WalletState)
    (acts : List Activation) (p : PaymentRecord)
    (api : String → Option PaymentRecord) (now : Int) (pst : WalletState)
    (hh : p.payment_hash = none) (hc : p.checking_id = none) :
    recordId p = "" ∧
    ("" ∈ st.processed_payments → scan_step cfg (st, acts) p = (st, acts)) ∧
    (hasKey st.pending_invoices "" = true → p.paid = false →
      (scan_step cfg (st, acts) p).1.pending_invoices =
        st.pending_invoices ∧
      (scan_step cfg (st, acts) p).2 = acts) ∧
    ((hasKey pst.pending_invoices "" = true ∨
        "" ∈ pst.processed_payments) →
      scan_new_step api now pst p = pst) := by
  have hrid : recordId p = "" := by
    unfold recordId
    rw [hh, hc]
    rfl
  refine ⟨hrid, ?_, ?_, ?_⟩
  · intro hin
    unfold scan_step
    dsimp only
    split
    · rfl
    · split
      · rfl
      · rename_i hnin
        exact absurd (hrid.symm ▸ hin) hnin
  · intro hk hpf
    have hsettled : settled cfg (st, acts).1 p :=
      Or.inr (Or.inr (Or.inr (Or.inr (Or.inr
        ⟨hpf, by rw [hrid]; exact hk⟩))))
    have hben := scan_step_benign hsettled
    exact ⟨hben.2, hben.1⟩
  · intro hor
    apply poll_step_noop
    unfold known
    rw [hrid]
    rcases hor with h | h
    · exact Or.inr (Or.inl h)
    · exact Or.inr (Or.inr h)

/-- C10 witness: an identifier-less unpaid record against a state with
`""` processed (dual skip), a state with `""` pending (no new entry, no
activation), and a polling state with `""` pending (skip), through
`C10_empty_identifier`. -/
theorem C10_empty_identifier_witness :
    ((⟨2000, none, none, "", some 10, none, none, none, false⟩ :
        PaymentRecord).payment_hash = none ∧
      (⟨2000, none, none, "", some 10, none, none, none, false⟩ :
        PaymentRecord).checking_id = none) ∧
    (recordId ⟨2000, none, none, "", some 10, none, none, none, false⟩ =
      "" ∧
    ("" ∈ (⟨[("", ⟨2, "", 10⟩)], [""], 0⟩ :
        WalletState).processed_payments →
      scan_step ⟨18, 1, 10, 10, 5⟩ (⟨[("", ⟨2, "", 10⟩)], [""], 0⟩, [])
        ⟨2000, none, none, "", some 10, none, none, none, false⟩ =
        (⟨[("", ⟨2, "", 10⟩)], [""], 0⟩, [])) ∧
    (hasKey (⟨[("", ⟨2, "", 10⟩)], [""], 0⟩ :
        WalletState).pending_invoices "" = true →
      (⟨2000, none, none, "", some 10, none, none, none, false⟩ :
        PaymentRecord).paid = false →
      (scan_step ⟨18, 1, 10, 10, 5⟩ (⟨[("", ⟨2, "", 10⟩)], [""], 0⟩, [])
        ⟨2000, none, none, "", some 10, none, none, none,
          false⟩).1.pending_invoices =
        (⟨[("", ⟨2, "", 10⟩)], [""], 0⟩ : WalletState).pending_invoices ∧
      (scan_step ⟨18, 1, 10, 10, 5⟩ (⟨[("", ⟨2, "", 10⟩)], [""], 0⟩, [])
        ⟨2000, none, none, "", some 10, none, none, none, false⟩).2 =
        []) ∧
    ((hasKey (⟨[("", ⟨2, "", 10⟩)], [""], 0⟩ :
        WalletState).pending_invoices "" = true ∨
      "" ∈ (⟨[("", ⟨2, "", 10⟩)], [""], 0⟩ :
        WalletState).processed_payments) →
      scan_new_step (fun _ => none) 11 ⟨[("", ⟨2, "", 10⟩)], [""], 0⟩
        ⟨2000, none, none, "", some 10, none, none, none, false⟩ =
        ⟨[("", ⟨2, "", 10⟩)], [""], 0⟩)) :=
  ⟨⟨by decide, by decide⟩,
    C10_empty_identifier ⟨18, 1, 10, 10, 5⟩ ⟨[("", ⟨2, "", 10⟩)], [""], 0⟩
      [] _ (fun _ => none) 11 ⟨[("", ⟨2, "", 10⟩)], [""], 0⟩ (by decide)
      (by decide)⟩

/-- C10 counterexample: the claim that *every* later identifier-less
record is skipped as a duplicate once `""` is resolved into the pending
map is false for the dual scan: after an identifier-less unpaid record
creates the pending entry for `""`, a later identifier-less record
marked paid with a fresh timestamp is still processed and actuates. -/
theorem C10_empty_id_counterexample :
    let cfg : WalletConfig := ⟨18, 1, 10, 10, 5⟩
    let r1 : PaymentRecord :=
      ⟨2000, none, none, "", some 10, none, none, none, false⟩
    let r2 : PaymentRecord :=
      ⟨3000, none, none, "", some 10, none, none, none, true⟩
    let r := scan_for_recent_payments cfg 100 (some [r1, r2]) ⟨[], [], 0⟩
    recordId r1 = "" ∧ recordId r2 = "" ∧
    hasKey r.1.pending_invoices "" = true ∧ r.2 = [("", 3)] := by
  decide

end LightningBeerTap
